import Mathlib

/-!
Shallow embedding of the GPW scraper (`fetch_company_data.py`): the extraction
helpers, the replace-by-key SQLite persistence layer, the scrape log, the tab
navigator loop and the per-company scrape task, together with theorems about
the behaviours the specification ascribes to them.

Conventions of the embedding:
* Python strings are Lean `String`s; `str.strip()` is `pyStrip` (stripping the
  whitespace characters Python strips, including the non-breaking space);
  `str.replace("\xa0", " ")` has a single-character pattern, so it is embedded
  as the character map `replaceNbsp`.
* BeautifulSoup lookups are modelled structurally: a parsed page (`Soup`)
  answers the label-cell lookup `select_one(...)` used by `get_text_from` as a
  function from (tab selector, label) to the optional raw cell text, and table
  tabs are given as lists of structured rows carrying the same data the CSS
  selectors read.
* pandas DataFrames holding one table are lists of typed records; a table that
  does not yet exist in the SQLite file is `none`.
* Timestamps are integer seconds; `timedelta(days=1)` is `86400`.
-/

/-- Characters stripped by Python `str.strip()` that occur in this domain
(ASCII whitespace and the non-breaking space). -/
def pyIsSpace (c : Char) : Bool :=
  c = ' ' || c = '\t' || c = '\n' || c = '\r' || c = '\x0b' || c = '\x0c' || c = '\xa0'

/-- Embeds Python `str.strip()`: drop the stripped characters from both ends. -/
def pyStrip (s : String) : String :=
  String.mk (((s.data.dropWhile pyIsSpace).reverse.dropWhile pyIsSpace).reverse)

/-- Embeds `str.replace("\xa0", " ")`: the pattern is the single character
U+00A0, so the replacement is a character-wise map. -/
def replaceNbsp (s : String) : String :=
  String.mk (s.data.map fun c => if c = '\xa0' then ' ' else c)

/-- The `BASE_URL` constant. -/
def BASE_URL : String := "https://www.gpw.pl"

/-- The `TABS` dict mapping tab keys to CSS ids (the commented-out `onp` entry
of the source is absent, as in the source). -/
def TABS : String → String
  | "info" => "#infoTab"
  | "quotations" => "#quotationsTab"
  | "indicators" => "#indicatorsTab"
  | "reports1" => "#reportsTab1"
  | "reports2" => "#reportsTab2"
  | "shareholders" => "#shareholdersTab"
  | "notoria" => "#showNotoria"
  | _ => ""

/-- Structural model of a BeautifulSoup document as consumed by `parse_core`.
`cell sel label` is the raw text of
`select_one(f"{sel} tr:has(th:-soup-contains({label})) td")`, `none` when the
selector matches nothing; `indexLinks` are the raw `get_text` results of the
index-membership anchors before stripping. -/
structure Soup where
  cell : String → String → Option String
  indexLinks : List String

/-- A soup in which every selector matches nothing. -/
def emptySoup : Soup := ⟨fun _ _ => none, []⟩

/-- Embeds `get_text_from`: select the labelled cell, and if present return its
text stripped (`get_text(strip=True)`) with non-breaking spaces replaced by
plain spaces; `None` when the row is absent. -/
def get_text_from (soup : Soup) (selector : String) (label_contains : String) :
    Option String :=
  (soup.cell selector label_contains).map fun s => replaceNbsp (pyStrip s)

/-- The `CompanyData` pydantic model (field for field; `url` is the company
identity, `HttpUrl` rendered as `String`). -/
structure CompanyData where
  url : String
  isin : String
  name : Option String := none
  description : Option String := none
  ticker : Option String := none
  full_name : Option String := none
  president : Option String := none
  province : Option String := none
  address : Option String := none
  phone : Option String := none
  fax : Option String := none
  website : Option String := none
  email : Option String := none
  debut_date : Option String := none
  issued_shares : Option String := none
  market_cap_mln : Option String := none
  book_value_mln : Option String := none
  price_to_book : Option String := none
  pe_ratio : Option String := none
  dividend_yield_percent : Option String := none
  index_membership : List String := []
  last_price : Option String := none
  change : Option String := none
  bid : Option String := none
  ask : Option String := none
  min_price : Option String := none
  max_price : Option String := none
  volume : Option String := none
  turnover_value : Option String := none
  debut_price : Option String := none
  max_52w : Option String := none
  min_52w : Option String := none
  market_segment : Option String := none
  sector : Option String := none
deriving DecidableEq

/-- The `Report` pydantic model. -/
structure Report where
  company_url : String
  tab : String
  date : String
  report_url : String
deriving DecidableEq

/-- The `Shareholder` pydantic model. -/
structure Shareholder where
  company_url : String
  shareholder : String
  shares_count : String
  shares_pct : String
  votes_count : String
  votes_pct : String
deriving DecidableEq

/-- The `NotoriaMetric` pydantic model. -/
structure NotoriaMetric where
  company_url : String
  metric : String
  value : String
deriving DecidableEq

/-- Embeds `parse_core`: every field is read through `get_text_from` on the
tab selectors of the source (`isin` falls back to the empty string via
`or ''`); index membership strips each anchor text (`get_text(strip=True)`),
with no non-breaking-space replacement, as in the source. The label strings are
the byte-exact literals of the source file. -/
def parse_core (soup : Soup) (url : String) : CompanyData :=
  let indicators := TABS "indicators"
  let info := TABS "info"
  let quo := TABS "quotations"
  let indexes := soup.indexLinks.map pyStrip
  { url := url,
    isin := (get_text_from soup indicators "ISIN").getD "",
    name := get_text_from soup info "Nazwa:",
    ticker := get_text_from soup info "Skr√≥t:",
    full_name := get_text_from soup info "Nazwa pe≈Çna:",
    president := get_text_from soup info "Prezes ZarzƒÖdu:",
    province := get_text_from soup info "Wojew√≥dztwo:",
    address := get_text_from soup info "Adres siedziby:",
    phone := get_text_from soup info "Numer telefonu:",
    fax := get_text_from soup info "Numer faksu:",
    website := get_text_from soup info "Strona www:",
    email := get_text_from soup info "E-mail:",
    debut_date := get_text_from soup info "Na gie≈Çdzie od:",
    issued_shares := get_text_from soup indicators "Liczba wyemitowanych akcji",
    market_cap_mln := get_text_from soup indicators "Warto≈õƒá rynkowa",
    book_value_mln := get_text_from soup indicators "Warto≈õƒá ksiƒôgowa",
    price_to_book := get_text_from soup indicators "C/WK",
    pe_ratio := get_text_from soup indicators "C/Z",
    dividend_yield_percent := get_text_from soup indicators "Stopa dywidendy",
    index_membership := indexes,
    last_price := get_text_from soup quo "Kurs ostatni",
    change := get_text_from soup quo "Zmiana",
    bid := get_text_from soup quo "Oferta kupna",
    ask := get_text_from soup quo "Oferta sprzeda≈ºy",
    min_price := get_text_from soup quo "Min.",
    max_price := get_text_from soup quo "Max.",
    volume := get_text_from soup quo "Wol. obrotu",
    turnover_value := get_text_from soup quo "Wart. obrotu",
    debut_price := get_text_from soup quo "Data i kurs debiutu",
    max_52w := get_text_from soup quo "Max historyczny",
    min_52w := get_text_from soup quo "Min historyczny",
    market_segment := get_text_from soup indicators "Rynek/Segment",
    sector := get_text_from soup indicators "Sektor" }

/-- One `tbody tr` of a reports tab as read by `extract_reports`: the first
cell's `a[href^=komunikat]` anchor, as (raw text, href), if present. -/
structure ReportRow where
  anchor : Option (String × String) := none
deriving DecidableEq

/-- Embeds `extract_reports`: skip rows with no matching anchor and header rows
whose stripped text is the literal Data; otherwise build a `Report` with the
stripped date and `BASE_URL + "/" + href`. -/
def extract_reports (rows : List ReportRow) (tab_key : String) (url : String) :
    List Report :=
  rows.filterMap fun row =>
    match row.anchor with
    | none => none
    | some (txt, href) =>
      if pyStrip txt = "Data" then none
      else some { company_url := url, tab := tab_key, date := pyStrip txt,
                  report_url := BASE_URL ++ "/" ++ href }

/-- One `tbody tr` of the shareholders tab: whether the row contains a `th`,
and the raw texts of its `td` cells. -/
structure HtmlRow where
  hasTh : Bool := false
  cells : List String := []
deriving DecidableEq

/-- Embeds `extract_shareholders`: skip `th` rows and rows with fewer than five
cells; the name and both percentages are only stripped, while the two count
columns are stripped and then have non-breaking spaces replaced, exactly as in
the source. -/
def extract_shareholders (rows : List HtmlRow) (url : String) :
    List Shareholder :=
  rows.filterMap fun row =>
    if row.hasTh then none
    else if row.cells.length < 5 then none
    else some { company_url := url,
                shareholder := pyStrip (row.cells.getD 0 ""),
                shares_count := replaceNbsp (pyStrip (row.cells.getD 1 "")),
                shares_pct := pyStrip (row.cells.getD 2 ""),
                votes_count := replaceNbsp (pyStrip (row.cells.getD 3 "")),
                votes_pct := pyStrip (row.cells.getD 4 "") }

/-- One `tbody tr` of the notoria tab: its first `th` and first `td` texts. -/
structure NotoriaRow where
  th : Option String := none
  td : Option String := none
deriving DecidableEq

/-- Embeds `extract_notoria`: rows missing either cell are skipped; the metric
name is only stripped, the value is stripped and has non-breaking spaces
replaced. -/
def extract_notoria (rows : List NotoriaRow) (url : String) :
    List NotoriaMetric :=
  rows.filterMap fun row =>
    match row.th, row.td with
    | some th, some td =>
      some { company_url := url, metric := pyStrip th,
             value := replaceNbsp (pyStrip td) }
    | _, _ => none

/-- Embeds `update_sqlite`: an empty row list returns immediately; otherwise
the existing table (if it exists) is filtered to the rows whose key differs
from the key of the FIRST new row (`rows[0][url_key]`), the new rows are
appended, and the table is rewritten. A missing table (`pd.read_sql` raising)
is `none` and becomes exactly the new rows. The source's fallback that scans
for a column containing the word url, and its branch for an existing table
without the key column, concern schema mismatches that the typed embedding
cannot produce, so they are not modelled. -/
def update_sqlite {α : Type} (key : α → String) (table : Option (List α))
    (rows : List α) : Option (List α) :=
  match rows with
  | [] => table
  | r0 :: _ =>
    match table with
    | none => some rows
    | some t => some ((t.filter fun r => key r != key r0) ++ rows)

/-- The value universe of `to_serializable`'s argument: pydantic `model_dump`
values are strings, `HttpUrl`s, `None`, or (possibly nested) lists of these.
The dict case of the source recurses into each value; the embedding applies
`to_serializable` to each field value directly. -/
inductive PyVal where
  | str (s : String)
  | url (s : String)
  | vnone
  | list (l : List PyVal)

/-- The `isinstance(x, str)` test of `to_serializable`. -/
def PyVal.isStr : PyVal → Bool
  | .str _ => true
  | _ => false

/-- The string payload of a `PyVal.str` (only applied under `isStr`). -/
def PyVal.getStr : PyVal → String
  | .str s => s
  | _ => ""

mutual
/-- Embeds `to_serializable`: a list whose elements are all strings becomes a
single comma-joined string; other lists are serialized elementwise; `HttpUrl`
values become strings; everything else passes through. -/
def to_serializable : PyVal → PyVal
  | .list l =>
    if l.all PyVal.isStr then .str (String.intercalate "," (l.map PyVal.getStr))
    else .list (to_serializable_list l)
  | .url s => .str s
  | v => v

/-- Elementwise serialization of a list value. -/
def to_serializable_list : List PyVal → List PyVal
  | [] => []
  | v :: vs => to_serializable v :: to_serializable_list vs
end

/-- The record bundle produced by the extraction part of
`process_company_data` (its four accumulator lists, in typed form). -/
structure ExtractedRecords where
  company : CompanyData
  reports : List Report
  shareholders : List Shareholder
  notoria : List NotoriaMetric
deriving DecidableEq

/-- The structured view of the captured tab HTML handed to
`process_company_data`: the merged info+indicators+quotations page as a
`Soup`, and the tab tables as structured rows (BeautifulSoup parsing of the
snapshot strings is modelled by these views). -/
structure Bundle where
  mergedSoup : Soup
  reports1Rows : List ReportRow := []
  reports2Rows : List ReportRow := []
  shareholderRows : List HtmlRow := []
  notoriaRows : List NotoriaRow := []

/-- A bundle in which every selector matches nothing and every table is
empty. -/
def emptyBundle : Bundle := { mergedSoup := emptySoup }

/-- The extraction phase of `process_company_data`: parse the merged core
page, attach the description, and run the three table extractors (reports from
both report tabs, in tab order). -/
def extract_records (url : String) (b : Bundle) (description : Option String) :
    ExtractedRecords :=
  let cd := { parse_core b.mergedSoup url with description := description }
  { company := cd,
    reports := extract_reports b.reports1Rows "reports1" url ++
               extract_reports b.reports2Rows "reports2" url,
    shareholders := extract_shareholders b.shareholderRows url,
    notoria := extract_notoria b.notoriaRows url }

/-- The four persisted SQLite tables (`none` = table not created yet). -/
structure DBState where
  company : Option (List CompanyData) := none
  reports : Option (List Report) := none
  shareholders : Option (List Shareholder) := none
  notoria : Option (List NotoriaMetric) := none
deriving DecidableEq

/-- The empty database: no table exists yet. -/
def emptyDB : DBState := {}

/-- Embeds the persistence phase of `process_company_data`: one
`update_sqlite` per table, keyed by `url` for the company table and by
`company_url` for the three child tables. -/
def process_company_data (db : DBState) (url : String) (b : Bundle)
    (description : Option String) : DBState :=
  let ex := extract_records url b description
  { company := update_sqlite (fun c => c.url) db.company [ex.company],
    reports := update_sqlite (fun r => r.company_url) db.reports ex.reports,
    shareholders :=
      update_sqlite (fun s => s.company_url) db.shareholders ex.shareholders,
    notoria := update_sqlite (fun m => m.company_url) db.notoria ex.notoria }

/-- The tab keys of the snapshot bundle collected by
`collect_tab_html_async`. -/
inductive TabKey where
  | info
  | indicators
  | quotations
  | reports1
  | reports2
  | shareholders
  | notoria
deriving DecidableEq

/-- The fixed tab iteration order of the `collect_tab_html_async` loop. -/
def tabOrder : List TabKey :=
  [.indicators, .quotations, .reports1, .reports2, .shareholders, .notoria]

/-- All seven bundle keys, in the order the bundle is built. -/
def allTabKeys : List TabKey :=
  [.info, .indicators, .quotations, .reports1, .reports2, .shareholders,
   .notoria]

/-- The observable state of the live browser page: its current content
(`page.content()`). -/
structure Page where
  content : String
deriving DecidableEq

/-- Embeds `collect_tab_html_async`. The info snapshot is captured first, from
the page as handed in, before any tab click. Each loop iteration attempts the
click-and-wait for one tab — modelled by `step tab st = (ok, st2)` where `ok`
says whether click+wait succeeded and `st2` is the page state after the
attempt — and records `page.content()` of the post-attempt state in BOTH the
success and the exception branch, then moves to the next tab. -/
def collect_tab_html (step : TabKey → Page → Bool × Page) (p : Page) :
    List (TabKey × String) :=
  (tabOrder.foldl
    (fun acc tab =>
      let st := (step tab acc.2).2
      (acc.1 ++ [(tab, st.content)], st))
    ([(TabKey.info, p.content)], p)).1

/-- The in-memory scrape log (`dict[str, datetime]`) and its persisted CSV,
both as association lists url ↦ last-scraped timestamp. -/
abbrev ScrapeLog := List (String × Int)

/-- Embeds `dict.get`: the entry for a url, if present. -/
def logGet (log : ScrapeLog) (url : String) : Option Int :=
  (log.find? fun p => p.1 == url).map Prod.snd

/-- Embeds `scrape_log[url] = t`: replace any previous entry for the url. -/
def logSet (log : ScrapeLog) (url : String) (t : Int) : ScrapeLog :=
  (log.filter fun p => p.1 != url) ++ [(url, t)]

/-- Embeds `save_scrape_log`: keep the persisted rows whose url does not occur
in the in-memory log, then append all in-memory entries, and overwrite the
file with the result. -/
def save_scrape_log (file mem : ScrapeLog) : ScrapeLog :=
  (file.filter fun p => (logGet mem p.1).isNone) ++ mem

/-- The skip check of `scrape_url_async`:
`last = scrape_log.get(url); if last and last > skip_threshold`. A datetime is
always truthy, so a present entry is skipped exactly when it is later than the
threshold. -/
def shouldSkip (mem : ScrapeLog) (url : String) (threshold : Int) : Bool :=
  match logGet mem url with
  | none => false
  | some last => decide (last > threshold)

/-- The three observable exits of `scrape_url_async`: the skip return, the
successful return `(url, True)`, and the caught-exception return
`(url, False)` (the source reports the skip and the failure through the same
boolean but distinct control paths and log lines). -/
inductive Outcome where
  | success
  | skippedFresh
  | failed
deriving DecidableEq

/-- The behaviour of the browser, remote site and storage for one company
task, i.e. which awaited steps of `scrape_url_async` succeed:
`newPageOk` — `context.new_page()` succeeds (this call sits after the skip
check and OUTSIDE the `try`, so its exception is not caught); `navOk` —
`page.goto` succeeds; `desc` — the result of `extract_description_async`,
which reads the description region with a 3s timeout and RAISES on timeout
(`none` = the locator timed out and the call raised, `some d` = it returned
text `d`); `bundle` — the structured view of the tab HTML collected by
`collect_tab_html` (which itself always returns a bundle: per-tab failures
are caught inside it); `dbOk` — the SQLite writes of `process_company_data`
succeed (a failure is modelled as raising before the first table write);
`saveLogOk` — `save_scrape_log` succeeds; `closeOk` — the `finally` clause's
`page.close()` succeeds (its exception is likewise not caught and replaces
the `return` of the `try` or `except` branch). -/
structure TaskEnv where
  newPageOk : Bool
  navOk : Bool
  desc : Option String
  bundle : Bundle
  dbOk : Bool
  saveLogOk : Bool
  closeOk : Bool

/-- How one company task ends: a normal return `(url, bool)` — one of the
three `Outcome`s — or an uncaught exception (from `context.new_page()` or the
`finally` clause's `page.close()`) that escapes the task. -/
inductive TaskExit where
  | returned (out : Outcome)
  | raised
deriving DecidableEq

/-- The state visible after one company task: the database, the in-memory
scrape log, the persisted scrape-log file, and how the task exited. -/
structure TaskResult where
  db : DBState
  mem : ScrapeLog
  file : ScrapeLog
  exit : TaskExit

/-- Embeds `scrape_url_async` for one company. The skip check returns before
a page is opened. Then `context.new_page()` runs OUTSIDE the `try`: its
failure raises out of the task uncaught. The `try` block — navigation,
description read (whose timeout raises and is caught by the task-level
handler), tab collection, extraction+persistence, the in-memory log update
`scrape_log[url] = now` and `save_scrape_log` — converts any raising step
into the `except` return `(url, False)`, leaving the persisted state of the
remaining steps untouched. Finally `page.close()` runs on both the `try` and
`except` returns; if it raises, the pending return is replaced by that
uncaught exception (the state already mutated by the block stays mutated).
The description is stripped (`.strip()`) before use. -/
def scrape_url (env : TaskEnv) (db : DBState) (mem file : ScrapeLog)
    (url : String) (now threshold : Int) : TaskResult :=
  if shouldSkip mem url threshold then ⟨db, mem, file, .returned .skippedFresh⟩
  else if env.newPageOk = false then ⟨db, mem, file, .raised⟩
  else
    let r : TaskResult :=
      if env.navOk = false then ⟨db, mem, file, .returned .failed⟩
      else
        match env.desc with
        | none => ⟨db, mem, file, .returned .failed⟩
        | some d =>
          if env.dbOk = false then ⟨db, mem, file, .returned .failed⟩
          else
            let db2 := process_company_data db url env.bundle (some (pyStrip d))
            let mem2 := logSet mem url now
            if env.saveLogOk = false then ⟨db2, mem2, file, .returned .failed⟩
            else ⟨db2, mem2, save_scrape_log file mem2, .returned .success⟩
    if env.closeOk = false then ⟨r.db, r.mem, r.file, .raised⟩
    else r

/-- State after a batch: database, in-memory log, persisted log, the per-url
outcome list of the tasks that returned, and — when some task raised an
uncaught exception — the url of that task. -/
structure BatchResult where
  db : DBState
  mem : ScrapeLog
  file : ScrapeLog
  outs : List (String × Outcome)
  raisedTask : Option String

/-- Runs the company tasks in sequence, threading the shared database and
scrape log (the source gathers the tasks under `Semaphore(BATCH_SIZE)` with
`BATCH_SIZE = 1`, so the tasks serialize in list order). A task that raises
an uncaught exception makes the awaited `asyncio.gather` raise;
`scrape_all_async` then propagates it and `asyncio.run` cancels the tasks
still waiting on the semaphore, so the remaining tasks produce no outcome:
the batch records the raising url and stops. -/
def scrape_tasks : List (String × TaskEnv) → DBState → ScrapeLog → ScrapeLog →
    Int → Int → BatchResult
  | [], db, mem, file, _, _ => ⟨db, mem, file, [], none⟩
  | (url, env) :: rest, db, mem, file, now, threshold =>
    let r := scrape_url env db mem file url now threshold
    match r.exit with
    | .raised => ⟨r.db, r.mem, r.file, [], some url⟩
    | .returned o =>
      let b := scrape_tasks rest r.db r.mem r.file now threshold
      ⟨b.db, b.mem, b.file, (url, o) :: b.outs, b.raisedTask⟩

/-- Embeds `scrape_all_async`: load the scrape log (in-memory copy = persisted
file), fix `skip_threshold = now - timedelta(days=1)` once for the batch, and
run every url's task. Per-task completion times are modelled by the single
batch clock `now`. -/
def scrape_all_async (tasks : List (String × TaskEnv)) (db : DBState)
    (log : ScrapeLog) (now : Int) : BatchResult :=
  scrape_tasks tasks db log log now (now - 86400)

/-! Helper lemmas (shared; none of them is a claim theorem). -/

/-- Filtering twice with the same predicate filters once. -/
theorem filter_idem {α : Type} (p : α → Bool) (l : List α) :
    (l.filter p).filter p = l.filter p := by
  induction l with
  | nil => rfl
  | cons a l ih =>
    by_cases h : p a = true
    · simp [List.filter_cons, h, ih]
    · simp [List.filter_cons, h, ih]

/-- A filter whose predicate fails on every member is empty. -/
theorem filter_all_false {α : Type} (p : α → Bool) (l : List α)
    (h : ∀ a ∈ l, p a = false) : l.filter p = [] := by
  induction l with
  | nil => rfl
  | cons a l ih =>
    simp only [List.filter_cons, h a (List.mem_cons_self a l),
      Bool.false_eq_true, if_false]
    exact ih fun x hx => h x (List.mem_cons_of_mem _ hx)

/-- A filter whose predicate holds on every member is the identity. -/
theorem filter_all_true {α : Type} (p : α → Bool) (l : List α)
    (h : ∀ a ∈ l, p a = true) : l.filter p = l := by
  induction l with
  | nil => rfl
  | cons a l ih =>
    simp only [List.filter_cons, h a (List.mem_cons_self a l), if_true]
    rw [ih fun x hx => h x (List.mem_cons_of_mem _ hx)]

/-- Replacing non-breaking spaces leaves no non-breaking space behind. -/
theorem nbsp_not_mem_replaceNbsp (s : String) : '\xa0' ∉ (replaceNbsp s).data := by
  intro h
  simp only [replaceNbsp] at h
  rcases List.mem_map.mp h with ⟨c, _, hc⟩
  by_cases h2 : c = '\xa0'
  · rw [if_pos h2] at hc
    exact absurd hc (by decide)
  · rw [if_neg h2] at hc
    exact h2 hc

/-- The second upsert of the same single-keyed row set changes nothing:
`update_sqlite` is idempotent whenever all rows share one key. -/
theorem update_sqlite_idem {α : Type} (key : α → String) (T : Option (List α))
    (rows : List α) (hk : ∀ r ∈ rows, ∀ s ∈ rows, key r = key s) :
    update_sqlite key (update_sqlite key T rows) rows = update_sqlite key T rows := by
  match rows with
  | [] => rfl
  | r0 :: rs =>
    have hall : ∀ r ∈ r0 :: rs, (key r != key r0) = false := by
      intro r hr
      have h := hk r hr r0 (List.mem_cons_self r0 rs)
      simp [h]
    match T with
    | none =>
      simp only [update_sqlite]
      rw [filter_all_false _ _ hall]
      rfl
    | some t =>
      simp only [update_sqlite]
      rw [List.filter_append, filter_idem, filter_all_false _ _ hall,
        List.append_nil]

/-- Every report extracted for a url carries that url as its key. -/
theorem extract_reports_key (rows : List ReportRow) (tab url : String) :
    ∀ r ∈ extract_reports rows tab url, r.company_url = url := by
  intro r hr
  simp only [extract_reports, List.mem_filterMap] at hr
  obtain ⟨row, _, h⟩ := hr
  split at h
  · exact absurd h (by simp)
  · split at h
    · exact absurd h (by simp)
    · obtain h2 := Option.some.inj h
      rw [← h2]

/-- Every shareholder extracted for a url carries that url as its key. -/
theorem extract_shareholders_key (rows : List HtmlRow) (url : String) :
    ∀ sh ∈ extract_shareholders rows url, sh.company_url = url := by
  intro sh hsh
  simp only [extract_shareholders, List.mem_filterMap] at hsh
  obtain ⟨row, _, h⟩ := hsh
  split at h
  · exact absurd h (by simp)
  · split at h
    · exact absurd h (by simp)
    · obtain h3 := Option.some.inj h
      rw [← h3]

/-- Every notoria metric extracted for a url carries that url as its key. -/
theorem extract_notoria_key (rows : List NotoriaRow) (url : String) :
    ∀ m ∈ extract_notoria rows url, m.company_url = url := by
  intro m hm
  simp only [extract_notoria, List.mem_filterMap] at hm
  obtain ⟨row, _, h⟩ := hm
  split at h
  · obtain h2 := Option.some.inj h
    rw [← h2]
  · exact absurd h (by simp)

/-- A list filtered to urls different from `url` has no entry for `url`. -/
theorem find?_filter_ne_url (l : ScrapeLog) (url : String) :
    ((l.filter fun p => p.1 != url).find? fun p => p.1 == url) = none := by
  apply List.find?_eq_none.mpr
  intro x hx
  have h2 := (List.mem_filter.mp hx).2
  simp only [bne_iff_ne, ne_eq] at h2
  simp [h2]

/-- Setting an entry makes it readable. -/
theorem logGet_logSet (mem : ScrapeLog) (url : String) (t : Int) :
    logGet (logSet mem url t) url = some t := by
  simp only [logGet, logSet, List.find?_append, find?_filter_ne_url]
  simp [List.find?]

/-- Saving the in-memory log to the persisted file preserves every entry the
in-memory log holds. -/
theorem logGet_save_of_mem (file mem : ScrapeLog) (url : String)
    (h : (logGet mem url).isSome = true) :
    logGet (save_scrape_log file mem) url = logGet mem url := by
  have hpre : ((file.filter fun p => (logGet mem p.1).isNone).find?
      fun p => p.1 == url) = none := by
    apply List.find?_eq_none.mpr
    intro x hx hbeq
    have h2 := (List.mem_filter.mp hx).2
    have h3 : x.1 = url := by simpa using hbeq
    rw [h3] at h2
    rw [Option.isNone_iff_eq_none.mp h2] at h
    exact absurd h (by simp)
  show Option.map Prod.snd
      (((file.filter fun p => (logGet mem p.1).isNone) ++ mem).find?
        fun p => p.1 == url) = logGet mem url
  rw [List.find?_append, hpre]
  rfl

/-- When no task of a batch raises an uncaught exception, every task produces
exactly one outcome, labelled with its url, in order: caught failures do not
abort the remaining tasks. -/
theorem scrape_tasks_outs (tasks : List (String × TaskEnv)) (db : DBState)
    (mem file : ScrapeLog) (now thr : Int)
    (h : (scrape_tasks tasks db mem file now thr).raisedTask = none) :
    (scrape_tasks tasks db mem file now thr).outs.map Prod.fst =
      tasks.map Prod.fst := by
  induction tasks generalizing db mem file with
  | nil => rfl
  | cons t rest ih =>
    obtain ⟨url, env⟩ := t
    revert h
    simp only [scrape_tasks]
    cases (scrape_url env db mem file url now thr).exit with
    | raised =>
      intro h
      simp at h
    | returned o =>
      intro h
      dsimp only at h ⊢
      simp only [List.map_cons]
      rw [ih _ _ _ h]

/-! Claim theorems. -/

/-- C4: the skip check returns true iff a prior log entry exists for the url
and `now` minus its timestamp is strictly below the fixed 24-hour window
(`skip_threshold = now - timedelta(days=1)`); concretely it skips an entry
aged 2 hours, does not skip one aged 25 hours, and does not skip a url with no
entry. -/
theorem shouldSkip_spec (mem : ScrapeLog) (url : String) (now : Int) :
    (shouldSkip mem url (now - 86400) = true ↔
      ∃ t, logGet mem url = some t ∧ now - t < 86400) ∧
    shouldSkip [(url, now - 7200)] url (now - 86400) = true ∧
    shouldSkip [(url, now - 90000)] url (now - 86400) = false ∧
    shouldSkip [] url (now - 86400) = false := by
  refine ⟨?_, ?_, ?_, ?_⟩
  · rcases h : logGet mem url with _ | t
    · simp [shouldSkip, h]
    · simp only [shouldSkip, h, decide_eq_true_eq, Option.some.injEq]
      constructor
      · intro h2
        exact ⟨t, rfl, by omega⟩
      · rintro ⟨t2, rfl, h2⟩
        omega
  · have h : logGet [(url, now - 7200)] url = some (now - 7200) := by
      simp [logGet, List.find?]
    simp only [shouldSkip, h, decide_eq_true_eq]
    omega
  · have h : logGet [(url, now - 90000)] url = some (now - 90000) := by
      simp [logGet, List.find?]
    simp only [shouldSkip, h, decide_eq_false_iff_not, decide_eq_true_eq]
    omega
  · rfl

/-- C5: the tab loop never aborts the company: for every click/wait behaviour
the returned bundle holds one entry per tab in the fixed order
info, indicators, quotations, reports1, reports2, shareholders, notoria, and
when every tab activation fails the loop still records the currently available
snapshot for each of the six tabs and proceeds. -/
theorem collect_tab_html_soft_failure (step : TabKey → Page → Bool × Page)
    (p : Page) :
    (collect_tab_html step p).map Prod.fst = allTabKeys ∧
    collect_tab_html (fun _ st => (false, st)) p =
      allTabKeys.map fun t => (t, p.content) :=
  ⟨rfl, rfl⟩

/-- C10: the bundle returned by the tab-collection step has exactly the seven
keys info, indicators, quotations, reports1, reports2, shareholders, notoria,
and its info entry is the page content as captured before any tab-activation
attempt, whatever the later tab attempts do. -/
theorem collect_tab_html_info_first (step : TabKey → Page → Bool × Page)
    (p : Page) :
    (collect_tab_html step p).map Prod.fst = allTabKeys ∧
    (collect_tab_html step p).head? = some (TabKey.info, p.content) :=
  ⟨rfl, rfl⟩

/-- C8: `to_serializable` turns the index-membership list of index names into
one comma-delimited string preserving list order, and in particular stores
the list WIG20, WIG as the string WIG20,WIG. -/
theorem index_membership_serialization (l : List String) :
    to_serializable (PyVal.list (l.map PyVal.str)) =
      PyVal.str (String.intercalate "," l) ∧
    to_serializable (PyVal.list [PyVal.str "WIG20", PyVal.str "WIG"]) =
      PyVal.str "WIG20,WIG" := by
  constructor
  · have hall : (l.map PyVal.str).all PyVal.isStr = true := by
      rw [List.all_eq_true]
      intro v hv
      rcases List.mem_map.mp hv with ⟨s, _, rfl⟩
      rfl
    simp only [to_serializable, hall, if_true]
    have hmap : ∀ m : List String, (m.map PyVal.str).map PyVal.getStr = m := by
      intro m
      induction m with
      | nil => rfl
      | cons s t ih =>
        simp only [List.map_cons, PyVal.getStr, ih]
    rw [hmap]
  · rfl

/-- C9: the extractor is a total function: for every tab snapshot bundle it
returns exactly one company record whose identity field is the given url, plus
report, shareholder and metric lists; on a bundle in which every selector
matches nothing it returns the record with the url, an empty isin and every
optional field null, together with three empty lists, rather than failing. -/
theorem extract_records_total_identity (b : Bundle) (url : String)
    (d : Option String) :
    (extract_records url b d).company.url = url ∧
    extract_records url emptyBundle none =
      ⟨{ url := url, isin := "" }, [], [], []⟩ :=
  ⟨rfl, rfl⟩

/-- C1 (counterexample): with a record set carrying two distinct keys,
`update_sqlite` deletes only rows matching the key of the FIRST record: the
pre-existing row keyed Z survives although Z is a key present in the new
records, contradicting delete-any-key-present-in-R. -/
theorem update_sqlite_multikey_counterexample :
    update_sqlite Prod.fst (some [("Z", "old")]) [("X", "a"), ("Z", "b")] =
      some [("Z", "old"), ("X", "a"), ("Z", "b")] ∧
    ("Z", "old") ∈ [("Z", "old"), ("X", "a"), ("Z", "b")] ∧
    ("Z", "old") ∉ [("X", "a"), ("Z", "b")] := by decide

/-- C1 (amended): `update_sqlite` deletes the existing rows whose key equals
the key of the first new record and appends all new records; hence whenever
all records of R share one key X — as in every call the pipeline makes — the
resulting table exists, its rows keyed X are exactly R (also when R is smaller
than what was stored), and its rows under any other key are unchanged; a
missing table becomes exactly R. -/
theorem update_sqlite_replace_by_first_key {α : Type} (key : α → String)
    (t rows : List α) (X : String) (hne : rows ≠ [])
    (hk : ∀ r ∈ rows, key r = X) :
    update_sqlite key none rows = some rows ∧
    ∃ res, update_sqlite key (some t) rows = some res ∧
      res.filter (fun r => key r == X) = rows ∧
      ∀ Y : String, Y ≠ X →
        res.filter (fun r => key r == Y) = t.filter (fun r => key r == Y) := by
  match rows with
  | [] => exact absurd rfl hne
  | r0 :: rs =>
    have hk0 : key r0 = X := hk r0 (List.mem_cons_self r0 rs)
    have hfa : (t.filter fun r => key r != key r0).filter
        (fun r => key r == X) = [] := by
      apply filter_all_false
      intro a ha
      have h2 := (List.mem_filter.mp ha).2
      rw [hk0] at h2
      simp only [bne_iff_ne, ne_eq] at h2
      simp [h2]
    have hft : (r0 :: rs).filter (fun r => key r == X) = r0 :: rs := by
      apply filter_all_true
      intro a ha
      simp [hk a ha]
    refine ⟨rfl, (t.filter fun r => key r != key r0) ++ r0 :: rs, rfl, ?_, ?_⟩
    · rw [List.filter_append, hfa, hft, List.nil_append]
    · intro Y hY
      have h1 : (r0 :: rs).filter (fun r => key r == Y) = [] := by
        apply filter_all_false
        intro a ha
        have h3 := hk a ha
        have h4 : X ≠ Y := fun h5 => hY h5.symm
        simp [h3, h4]
      have h2 : (t.filter fun r => key r != key r0).filter
          (fun r => key r == Y) = t.filter (fun r => key r == Y) := by
        simp only [hk0]
        rw [List.filter_filter]
        apply List.filter_congr
        intro a ha
        by_cases h5 : key a = Y
        · have h6 : key a ≠ X := by rw [h5]; exact fun h7 => hY h7
          simp [h5, h6, hY]
        · simp [h5]
      rw [List.filter_append, h1, List.append_nil, h2]

/-- C1 (witness): the amended replace-by-first-key theorem at a concrete
two-company table. -/
theorem update_sqlite_replace_by_first_key_witness :
    update_sqlite (fun r : String × String => r.1) none
        [("X", "a"), ("X", "b")] = some [("X", "a"), ("X", "b")] ∧
    ∃ res, update_sqlite (fun r : String × String => r.1)
        (some [("Y", "y1"), ("X", "x0")]) [("X", "a"), ("X", "b")] =
          some res ∧
      res.filter (fun r => r.1 == "X") = [("X", "a"), ("X", "b")] ∧
      ∀ Y2 : String, Y2 ≠ "X" →
        res.filter (fun r => r.1 == Y2) =
          [("Y", "y1"), ("X", "x0")].filter (fun r => r.1 == Y2) :=
  update_sqlite_replace_by_first_key (fun r => r.1) [("Y", "y1"), ("X", "x0")]
    [("X", "a"), ("X", "b")] "X" (by decide) (by decide)

/-- A task environment in which the page opens and navigation succeeds but
the description-region read times out (so `extract_description_async`
raises), while everything else would succeed. -/
def descTimeoutEnv : TaskEnv :=
  { newPageOk := true, navOk := true, desc := none, bundle := emptyBundle,
    dbOk := true, saveLogOk := true, closeOk := true }

/-- C2 (counterexample): with successful navigation and a timed-out
description read (everything downstream able to succeed), the task ends in the
caught-exception exit — the Failed outcome — with no table written and no
scrape-log entry, instead of proceeding with an empty description. -/
theorem description_timeout_failed_counterexample :
    (scrape_url descTimeoutEnv emptyDB [] [] "u" 7 0).exit =
      TaskExit.returned Outcome.failed ∧
    (scrape_url descTimeoutEnv emptyDB [] [] "u" 7 0).db = emptyDB ∧
    (scrape_url descTimeoutEnv emptyDB [] [] "u" 7 0).file = [] :=
  ⟨rfl, rfl, rfl⟩

/-- C2 (amended): a timeout of the description-region read is fatal to that
company's task: whenever the skip check passes and navigation succeeded but
the description read raised, the task returns the Failed outcome and leaves
the database, the in-memory log and the persisted log unchanged. -/
theorem description_timeout_fatal (env : TaskEnv) (db : DBState)
    (mem file : ScrapeLog) (url : String) (now threshold : Int)
    (hskip : shouldSkip mem url threshold = false)
    (hpage : env.newPageOk = true) (hnav : env.navOk = true)
    (hdesc : env.desc = none) (hclose : env.closeOk = true) :
    scrape_url env db mem file url now threshold =
      ⟨db, mem, file, TaskExit.returned Outcome.failed⟩ := by
  simp [scrape_url, hskip, hpage, hnav, hdesc, hclose]

/-- C2 (witness): the amended description-timeout theorem at a concrete
environment. -/
theorem description_timeout_fatal_witness :
    scrape_url descTimeoutEnv emptyDB [] [] "u" 7 0 =
      ⟨emptyDB, [], [], TaskExit.returned Outcome.failed⟩ :=
  description_timeout_fatal descTimeoutEnv emptyDB [] [] "u" 7 0 rfl rfl rfl
    rfl rfl

/-- A task environment in which every awaited step succeeds. -/
def allOkEnv : TaskEnv :=
  { newPageOk := true, navOk := true, desc := some " d ",
    bundle := emptyBundle, dbOk := true, saveLogOk := true, closeOk := true }

/-- A task environment whose `context.new_page()` call raises; that call sits
after the skip check and outside the `try`, so nothing catches it. -/
def newPageFailEnv : TaskEnv :=
  { newPageOk := false, navOk := true, desc := some " d ",
    bundle := emptyBundle, dbOk := true, saveLogOk := true, closeOk := true }

/-- A task environment in which every guarded step succeeds but the `finally`
clause's `page.close()` raises. -/
def closeFailEnv : TaskEnv :=
  { newPageOk := true, navOk := true, desc := some " d ",
    bundle := emptyBundle, dbOk := true, saveLogOk := true, closeOk := false }

/-- C3 (counterexample): two exceptions after the skip check are NOT caught.
A failing `context.new_page()` raises out of the task: in a two-company batch
the first company's page-open failure leaves no outcome at all — not even for
the sibling, which is cancelled when the gathered exception propagates. And a
failing `page.close()` in the `finally` clause raises after a fully
successful run, when the fresh timestamp is already persisted: the task ends
in an unhandled error, yet the staleness-log entry for that identity has
changed. -/
theorem uncaught_task_exceptions_counterexample :
    (scrape_all_async [("a", newPageFailEnv), ("b", allOkEnv)] emptyDB []
      7).outs = [] ∧
    (scrape_all_async [("a", newPageFailEnv), ("b", allOkEnv)] emptyDB []
      7).raisedTask = some "a" ∧
    (scrape_url closeFailEnv emptyDB [] [] "u" 7 0).exit = TaskExit.raised ∧
    logGet (scrape_url closeFailEnv emptyDB [] [] "u" 7 0).file "u" =
      some 7 :=
  ⟨rfl, rfl, rfl, rfl⟩

/-- C3 (amended): the caught/uncaught split of the per-company task. The task
returns Success — and only then — when the skip check passes and page open,
navigation, description read, persistence, log save and page close all
succeed, and then the persisted log holds the fresh timestamp for the url.
When page open and page close succeed, every exception of the guarded `try`
block is caught and converted into a returned outcome, and any non-Success
return leaves the persisted log unchanged for every identity. But a page-open
failure after the skip check raises out of the task with all state unchanged,
and a batch only yields one outcome per url when no task raised — an uncaught
exception propagates through the gather and cancels the remaining tasks. -/
theorem scrape_log_guarded_steps (env : TaskEnv) (db : DBState)
    (mem file : ScrapeLog) (url : String) (now threshold : Int) :
    ((scrape_url env db mem file url now threshold).exit =
        TaskExit.returned Outcome.success ↔
      shouldSkip mem url threshold = false ∧ env.newPageOk = true ∧
        env.navOk = true ∧ env.desc.isSome = true ∧ env.dbOk = true ∧
        env.saveLogOk = true ∧ env.closeOk = true) ∧
    ((scrape_url env db mem file url now threshold).exit =
        TaskExit.returned Outcome.success →
      logGet (scrape_url env db mem file url now threshold).file url =
        some now) ∧
    (env.newPageOk = true → env.closeOk = true →
      (∃ o, (scrape_url env db mem file url now threshold).exit =
          TaskExit.returned o) ∧
      ((scrape_url env db mem file url now threshold).exit ≠
          TaskExit.returned Outcome.success →
        (scrape_url env db mem file url now threshold).file = file)) ∧
    (shouldSkip mem url threshold = false → env.newPageOk = false →
      scrape_url env db mem file url now threshold =
        ⟨db, mem, file, TaskExit.raised⟩) ∧
    (∀ tasks : List (String × TaskEnv), ∀ db0 : DBState, ∀ log0 : ScrapeLog,
      ∀ n0 : Int,
      (scrape_all_async tasks db0 log0 n0).raisedTask = none →
        (scrape_all_async tasks db0 log0 n0).outs.map Prod.fst =
          tasks.map Prod.fst) := by
  refine ⟨?_, ?_, ?_, ?_,
    fun tasks db0 log0 n0 h =>
      scrape_tasks_outs tasks db0 log0 log0 n0 (n0 - 86400) h⟩
  · cases hs : shouldSkip mem url threshold with
    | true => simp [scrape_url, hs]
    | false =>
      cases hp : env.newPageOk with
      | false => simp [scrape_url, hs, hp]
      | true =>
        cases hc : env.closeOk with
        | false => simp [scrape_url, hs, hp, hc]
        | true =>
          cases hn : env.navOk with
          | false => simp [scrape_url, hs, hp, hc, hn]
          | true =>
            cases hd : env.desc with
            | none => simp [scrape_url, hs, hp, hc, hn, hd]
            | some d =>
              cases hb : env.dbOk with
              | false => simp [scrape_url, hs, hp, hc, hn, hd, hb]
              | true =>
                cases hl : env.saveLogOk with
                | false => simp [scrape_url, hs, hp, hc, hn, hd, hb, hl]
                | true => simp [scrape_url, hs, hp, hc, hn, hd, hb, hl]
  · intro hsucc
    cases hs : shouldSkip mem url threshold with
    | true => simp [scrape_url, hs] at hsucc
    | false =>
      cases hp : env.newPageOk with
      | false => simp [scrape_url, hs, hp] at hsucc
      | true =>
        cases hc : env.closeOk with
        | false => simp [scrape_url, hs, hp, hc] at hsucc
        | true =>
          cases hn : env.navOk with
          | false => simp [scrape_url, hs, hp, hc, hn] at hsucc
          | true =>
            cases hd : env.desc with
            | none => simp [scrape_url, hs, hp, hc, hn, hd] at hsucc
            | some d =>
              cases hb : env.dbOk with
              | false => simp [scrape_url, hs, hp, hc, hn, hd, hb] at hsucc
              | true =>
                cases hl : env.saveLogOk with
                | false =>
                  simp [scrape_url, hs, hp, hc, hn, hd, hb, hl] at hsucc
                | true =>
                  have hstep :
                      (scrape_url env db mem file url now threshold).file =
                        save_scrape_log file (logSet mem url now) := by
                    simp [scrape_url, hs, hp, hc, hn, hd, hb, hl]
                  rw [hstep]
                  have hmem2 : (logGet (logSet mem url now) url).isSome =
                      true := by
                    rw [logGet_logSet]
                    rfl
                  rw [logGet_save_of_mem _ _ _ hmem2, logGet_logSet]
  · intro hp hc
    cases hs : shouldSkip mem url threshold with
    | true =>
      exact ⟨⟨Outcome.skippedFresh, by simp [scrape_url, hs]⟩,
        fun _ => by simp [scrape_url, hs]⟩
    | false =>
      cases hn : env.navOk with
      | false =>
        exact ⟨⟨Outcome.failed, by simp [scrape_url, hs, hp, hc, hn]⟩,
          fun _ => by simp [scrape_url, hs, hp, hc, hn]⟩
      | true =>
        cases hd : env.desc with
        | none =>
          exact ⟨⟨Outcome.failed, by simp [scrape_url, hs, hp, hc, hn, hd]⟩,
            fun _ => by simp [scrape_url, hs, hp, hc, hn, hd]⟩
        | some d =>
          cases hb : env.dbOk with
          | false =>
            exact ⟨⟨Outcome.failed,
                by simp [scrape_url, hs, hp, hc, hn, hd, hb]⟩,
              fun _ => by simp [scrape_url, hs, hp, hc, hn, hd, hb]⟩
          | true =>
            cases hl : env.saveLogOk with
            | false =>
              exact ⟨⟨Outcome.failed,
                  by simp [scrape_url, hs, hp, hc, hn, hd, hb, hl]⟩,
                fun _ => by simp [scrape_url, hs, hp, hc, hn, hd, hb, hl]⟩
            | true =>
              refine ⟨⟨Outcome.success,
                  by simp [scrape_url, hs, hp, hc, hn, hd, hb, hl]⟩,
                fun hne => absurd
                  (by simp [scrape_url, hs, hp, hc, hn, hd, hb, hl]) hne⟩
  · intro h1 h2
    simp [scrape_url, h1, h2]

/-- C3 (witness): with every step succeeding the persisted log gains the
fresh timestamp. -/
theorem scrape_log_guarded_steps_witness :
    logGet (scrape_url allOkEnv emptyDB [] [] "u" 7 0).file "u" = some 7 :=
  (scrape_log_guarded_steps allOkEnv emptyDB [] [] "u" 7 0).2.1 rfl

/-- C6 (counterexample): an interior non-breaking space in a shareholder name
survives extraction (`cells[0].text.strip()` strips only the ends), so not
every field of every extracted record has its non-breaking spaces replaced by
plain spaces. -/
theorem extract_shareholders_nbsp_counterexample :
    (extract_shareholders
        [⟨false, ["Jan\xa0Kowalski", "100", "10", "100", "10"]⟩] "u").map
      (fun s => s.shareholder) = ["Jan\xa0Kowalski"] ∧
    '\xa0' ∈ "Jan\xa0Kowalski".data := by decide

/-- C6 (amended): non-breaking spaces are replaced by plain spaces in the
fields read through the label-lookup helper (all core company fields), in the
shareholder share and vote counts, and in the notoria metric values; the
remaining extracted fields are only stripped at the ends and may keep interior
non-breaking spaces. -/
theorem nbsp_normalized_fields (soup : Soup) (sel lab : String)
    (rows : List HtmlRow) (nrows : List NotoriaRow) (url v : String) :
    (get_text_from soup sel lab = some v → '\xa0' ∉ v.data) ∧
    (∀ sh ∈ extract_shareholders rows url,
      '\xa0' ∉ sh.shares_count.data ∧ '\xa0' ∉ sh.votes_count.data) ∧
    (∀ m ∈ extract_notoria nrows url, '\xa0' ∉ m.value.data) := by
  refine ⟨?_, ?_, ?_⟩
  · intro h
    rcases hc : soup.cell sel lab with _ | s
    · rw [get_text_from, hc] at h
      exact absurd h (by simp)
    · rw [get_text_from, hc] at h
      obtain h2 := Option.some.inj h
      rw [← h2]
      exact nbsp_not_mem_replaceNbsp _
  · intro sh hsh
    simp only [extract_shareholders, List.mem_filterMap] at hsh
    obtain ⟨row, _, h⟩ := hsh
    split at h
    · exact absurd h (by simp)
    · split at h
      · exact absurd h (by simp)
      · obtain h3 := Option.some.inj h
        rw [← h3]
        exact ⟨nbsp_not_mem_replaceNbsp _, nbsp_not_mem_replaceNbsp _⟩
  · intro m hm
    simp only [extract_notoria, List.mem_filterMap] at hm
    obtain ⟨row, _, h⟩ := hm
    split at h
    · obtain h2 := Option.some.inj h
      rw [← h2]
      exact nbsp_not_mem_replaceNbsp _
    · exact absurd h (by simp)

/-- A soup whose every cell holds an interior non-breaking space. -/
def nbspSoup : Soup := ⟨fun _ _ => some "x\xa0y", []⟩

/-- A shareholders table with a non-breaking space inside the share count. -/
def nbspRows : List HtmlRow := [⟨false, ["n", "1\xa02", "3", "4", "5"]⟩]

/-- The shareholder record extracted from `nbspRows`. -/
def nbspSh : Shareholder :=
  { company_url := "u", shareholder := "n", shares_count := "1 2",
    shares_pct := "3", votes_count := "4", votes_pct := "5" }

/-- C6 (witness): the normalized-fields theorem applied to a concrete cell and
a concrete shareholder row. -/
theorem nbsp_normalized_fields_witness :
    '\xa0' ∉ "x y".data ∧ '\xa0' ∉ "1 2".data :=
  ⟨(nbsp_normalized_fields nbspSoup "s" "l" [] [] "u" "x y").1 (by decide),
   ((nbsp_normalized_fields nbspSoup "s" "l" nbspRows [] "u" "x").2.1 nbspSh
      (by decide)).1⟩

/-- C7: the extract-and-persist pipeline is idempotent: running
`process_company_data` twice for the same company on the same captured data
leaves all four tables exactly as after the first run, because every extracted
record carries the company url as its key and `update_sqlite` replaces by that
key. -/
theorem process_company_data_idempotent (db : DBState) (url : String)
    (b : Bundle) (d : Option String) :
    process_company_data (process_company_data db url b d) url b d =
      process_company_data db url b d := by
  have hcomp : ∀ r ∈ [(extract_records url b d).company],
      ∀ s ∈ [(extract_records url b d).company], r.url = s.url := by
    intro r hr s hs
    rw [List.mem_singleton] at hr hs
    rw [hr, hs]
  have hrep : ∀ r ∈ (extract_records url b d).reports, r.company_url = url := by
    intro r hr
    simp only [extract_records] at hr
    rcases List.mem_append.mp hr with h | h
    · exact extract_reports_key _ _ _ r h
    · exact extract_reports_key _ _ _ r h
  have hsh : ∀ r ∈ (extract_records url b d).shareholders,
      r.company_url = url := by
    intro r hr
    simp only [extract_records] at hr
    exact extract_shareholders_key _ _ r hr
  have hnt : ∀ r ∈ (extract_records url b d).notoria, r.company_url = url := by
    intro r hr
    simp only [extract_records] at hr
    exact extract_notoria_key _ _ r hr
  simp only [process_company_data]
  congr 1
  · exact update_sqlite_idem _ _ _ hcomp
  · exact update_sqlite_idem _ _ _
      (fun r hr s hs => by rw [hrep r hr, hrep s hs])
  · exact update_sqlite_idem _ _ _
      (fun r hr s hs => by rw [hsh r hr, hsh s hs])
  · exact update_sqlite_idem _ _ _
      (fun r hr s hs => by rw [hnt r hr, hnt s hs])
